import Mathlib

/-!
Verification of the core logic of the Azure-Game-Companion repository
(`src/game_companion.py`): the choice-extraction cascade `extract_choices`,
the bounded conversation history `GameState.add_to_history`, the state
transition `process_choice`, and the orchestration step `get_ai_response`.

Text is modelled as `List Char` (the repository manipulates Python `str`
values character-wise via `split`, `strip`, slicing and containment tests).
Python dictionaries with string keys are modelled as insertion-ordered
association lists.  The provider call inside `get_ai_response` is modelled
by an explicit `Except` argument; the random sanity perturbation inside
`process_choice` is an explicit `Int` argument (an injected random source).
-/

abbrev Str := List Char

/-- Python `sub in s` (substring containment): some suffix of `s` has `sub`
as a prefix. -/
def containsSub (sub : Str) : Str → Bool
  | [] => sub.isPrefixOf []
  | c :: cs => sub.isPrefixOf (c :: cs) || containsSub sub cs

/-- Python `text.split(c)` for a one-character separator: splits at every
occurrence, keeping empty pieces (`split` of the empty string is `[""]`). -/
def pySplit (sep : Char) : Str → List Str
  | [] => [[]]
  | c :: cs =>
    if c = sep then [] :: pySplit sep cs
    else
      match pySplit sep cs with
      | [] => [[c]]
      | l :: ls => (c :: l) :: ls

/-- The whitespace characters stripped by Python `str.strip()` (ASCII part). -/
def pyIsSpace (c : Char) : Bool :=
  c = ' ' || c = '\t' || c = '\n' || c = '\r' || c = '\x0b' || c = '\x0c'

/-- Python `s.strip()`: remove leading and trailing whitespace. -/
def pyStrip (s : Str) : Str :=
  ((s.dropWhile pyIsSpace).reverse.dropWhile pyIsSpace).reverse

/-- Python `line.split(":", 1)[1]`: everything after the first colon
(empty when the line has no colon; the source only applies it to lines
containing one). -/
def afterFirstColon (s : Str) : Str :=
  (s.dropWhile (fun c => !(c = ':'))).tail

/-- `game_companion.py` line 201: the lines of the response that contain the
token `"CHOICE "`. -/
def choice_lines (text : Str) : List Str :=
  (pySplit '\n' text).filter (fun line => containsSub "CHOICE ".toList line)

/-- Tier-1 collection (lines 203-206): from each `"CHOICE "` line that also
contains a colon, take everything after the first colon, stripped. -/
def tier1_choices (text : Str) : List Str :=
  (choice_lines text).filterMap (fun line =>
    if containsSub ":".toList line then some (pyStrip (afterFirstColon line))
    else none)

/-- Tier-2 collection (lines 209-213): lines whose stripped form starts with
`"- "`, `"• "` or `"* "`, taking the remainder after these two characters,
stripped. -/
def tier2_choices (text : Str) : List Str :=
  (pySplit '\n' text).filterMap (fun line =>
    let s := pyStrip line
    if "- ".toList.isPrefixOf s || "• ".toList.isPrefixOf s
        || "* ".toList.isPrefixOf s then
      some (pyStrip (s.drop 2))
    else none)

/-- Tier-3 collection (lines 216-220): lines whose stripped form starts with
`"1. "` or `"2. "`, taking the remainder after these three characters,
stripped. -/
def tier3_choices (text : Str) : List Str :=
  (pySplit '\n' text).filterMap (fun line =>
    let s := pyStrip line
    if "1. ".toList.isPrefixOf s || "2. ".toList.isPrefixOf s then
      some (pyStrip (s.drop 3))
    else none)

/-- The cascade of the three tiers: a later tier runs only when every
earlier tier collected nothing (the `if not choices:` guards). -/
def collected_choices (text : Str) : List Str :=
  if tier1_choices text ≠ [] then tier1_choices text
  else if tier2_choices text ≠ [] then tier2_choices text
  else tier3_choices text

/-- The fixed default pair of lines 223-224. -/
def default_choices : List Str :=
  ["Continue the story".toList, "Ask what's happening".toList]

/-- `extract_choices` (lines 197-226): the cascade result, replaced by the
default pair when fewer than two choices were collected, truncated to the
first two. -/
def extract_choices (text : Str) : List Str :=
  (if (collected_choices text).length < 2 then default_choices
   else collected_choices text).take 2

/-- One conversation turn: a `role`/`content` message dictionary. -/
structure Turn where
  role : String
  content : Str
deriving DecidableEq, Repr

/-- The `while ... other_messages.pop(0)` loop of `add_to_history`
(lines 114-115): drop the oldest non-system messages while the combined
count exceeds 20 and some non-system message remains.  `nsys` is the
(fixed) number of system messages. -/
def trimLoop (nsys : Nat) : List Turn → List Turn
  | [] => []
  | m :: ms => if nsys + (m :: ms).length > 20 then trimLoop nsys ms else m :: ms

/-- `GameState.add_to_history` (lines 105-116), acting on the
`message_history` list: append the new message; when the history exceeds 20
entries, keep all system messages and drop the oldest non-system messages
until at most 20 remain, rebuilding the list as system messages followed by
the surviving non-system messages. -/
def add_to_history (history : List Turn) (role : String) (content : Str) :
    List Turn :=
  let h := history ++ [⟨role, content⟩]
  if h.length > 20 then
    let system_messages := h.filter (fun m => m.role == "system")
    let other_messages := h.filter (fun m => !(m.role == "system"))
    system_messages ++ trimLoop system_messages.length other_messages
  else h

/-- The full game state (`GameState.__init__`, lines 85-103), restricted to
the fields the core logic reads or writes.  `choices_made` is an
insertion-ordered association list modelling the Python dict. -/
structure GameState where
  current_scene : Str
  player_name : Str
  inventory : List Str
  choices_made : List (Str × Str)
  story_path : Str
  sanity : Int
  character_relationships : List (Str × Int)
  message_history : List Turn
  current_text : Str
  current_choices : List Str
  is_typing : Bool
  input_text : Str
  input_active : Bool
  voice_active : Bool
  is_processing : Bool
  show_debug : Bool
  show_help : Bool
  audio_enabled : Bool
deriving DecidableEq, Repr

/-- The state built by `GameState.__init__`. -/
def initGameState : GameState where
  current_scene := "intro".toList
  player_name := "Stefan".toList
  inventory := []
  choices_made := []
  story_path := "main".toList
  sanity := 100
  character_relationships :=
    [("colin".toList, 50), ("mohan".toList, 50), ("therapist".toList, 50)]
  message_history := []
  current_text := []
  current_choices := []
  is_typing := false
  input_text := []
  input_active := false
  voice_active := false
  is_processing := false
  show_debug := false
  show_help := false
  audio_enabled := true

/-- Python dict assignment `d[k] = v` on an insertion-ordered association
list: update the value in place when the key is present, otherwise append. -/
def dictInsert (k v : Str) (d : List (Str × Str)) : List (Str × Str) :=
  if d.any (fun p => p.1 == k) then
    d.map (fun p => if p.1 == k then (k, v) else p)
  else d ++ [(k, v)]

/-- The interpolated game-state context message of `get_ai_response`
(lines 521-530). -/
def context_message (gs : GameState) : Str :=
  "\n        Current game state:\n        - Scene: ".toList ++ gs.current_scene
    ++ "\n        - Sanity level: ".toList ++ (toString gs.sanity).toList
    ++ "%\n        - Path: ".toList ++ gs.story_path
    ++ "\n        - Previous choices: ".toList
    ++ (toString gs.choices_made.length).toList
    ++ "\n        \n        Continue the story based on the player's input, providing atmospheric descriptions\n        and exactly TWO clear choices at the end marked with \"CHOICE A:\" and \"CHOICE B:\".\n        ".toList

/-- The error text built in the `except` clause (line 559). -/
def error_message (e : Str) : Str :=
  "Error communicating with Azure OpenAI: ".toList ++ e

/-- `get_ai_response` (lines 515-564).  The provider call is the `resp`
argument: `.ok text` models a successful completion, `.error e` a raised
provider exception.  The `except` clause catches any provider failure and
converts it into a displayed error message, so the function always returns
normally; the `finally` clause clears `is_processing` on both paths.
`display_text_with_typing` is modelled by its final effect on the state
(the full text displayed, `is_typing` reset). -/
def get_ai_response (gs : GameState) (user_input : Str)
    (resp : Except Str Str) : GameState :=
  let gs1 := { gs with is_processing := true, current_choices := [] }
  let gs2 := { gs1 with
    message_history := add_to_history gs1.message_history "system"
      (context_message gs1) }
  match resp with
  | .ok ai_message =>
    let gs3 := { gs2 with
      message_history := add_to_history gs2.message_history "assistant"
        ai_message }
    let gs4 := { gs3 with current_text := ai_message, is_typing := false }
    let gs5 := { gs4 with current_choices := extract_choices ai_message }
    { gs5 with is_processing := false }
  | .error e =>
    { gs2 with current_text := error_message e, is_processing := false }

/-- The ordered message sequence submitted to the model provider by
`get_ai_response` (line 537): the history as it stands after the context
message of step 2 was appended. -/
def submitted_messages (gs : GameState) (user_input : Str) : List Turn :=
  let gs1 := { gs with is_processing := true, current_choices := [] }
  add_to_history gs1.message_history "system" (context_message gs1)

/-- `process_choice` (lines 493-512).  `sanity_change` is the injected
draw of `random.randint(-5, 5)`; `resp` is the provider response consumed
by the inner `get_ai_response` call. -/
def process_choice (gs : GameState) (choice_index : Nat) (sanity_change : Int)
    (resp : Except Str Str) : GameState :=
  if h : choice_index < gs.current_choices.length then
    let choice_text := gs.current_choices.get ⟨choice_index, h⟩
    let gs1 := { gs with
      choices_made := dictInsert gs.current_scene choice_text gs.choices_made }
    let gs2 := { gs1 with
      message_history := add_to_history gs1.message_history "user" choice_text }
    let gs3 := get_ai_response gs2 ("I choose: ".toList ++ choice_text) resp
    let gs4 := { gs3 with
      sanity := max 0 (min 100 (gs3.sanity + sanity_change)) }
    { gs4 with
      current_scene := "scene_".toList
        ++ (toString gs4.choices_made.length).toList }
  else gs

/-- Iterated `process_choice` calls: each step supplies a chosen index, a
perturbation draw and a provider response. -/
def runChoices (gs : GameState) : List (Nat × Int × Except Str Str) → GameState
  | [] => gs
  | (i, d, r) :: rest => runChoices (process_choice gs i d r) rest

/-- The tier-1 line condition actually tested by the code (lines 201 and
204): the line contains the token `"CHOICE "`, and it contains a colon
anywhere (the two tests are independent). -/
def tier1_match (line : Str) : Bool :=
  containsSub "CHOICE ".toList line && containsSub ":".toList line

/-- The remainder of `s` after the first occurrence of `tok`, when `tok`
occurs in `s`. -/
def afterFirstTok (tok : Str) : Str → Option Str
  | [] => if tok.isEmpty then some [] else none
  | c :: cs =>
    if tok.isPrefixOf (c :: cs) then some ((c :: cs).drop tok.length)
    else afterFirstTok tok cs

/-- The tier-1 line condition as the specification words it: the line
contains the token `"CHOICE "` *followed later in the line* by a colon.
Stated for comparison against `tier1_match`, the condition the code tests. -/
def tier1_match_claimed (line : Str) : Bool :=
  match afterFirstTok "CHOICE ".toList line with
  | some rest => containsSub ":".toList rest
  | none => false

/-- Join lines with the newline separator (left inverse of `pySplit` on
newline-free lines). -/
def joinLines : List Str → Str
  | [] => []
  | [l] => l
  | l :: l' :: ls => l ++ '\n' :: joinLines (l' :: ls)

/-- A run of 21 `add_to_history` calls: twenty user messages `"0"`..`"19"`
followed by one system message `"S"`. -/
def demo_appends : List (String × Str) :=
  ((List.range 20).map (fun n => ("user", (toString n).toList)))
    ++ [("system", "S".toList)]

/-- The history that the run `demo_appends` leaves behind. -/
def demo_run : List Turn :=
  demo_appends.foldl (fun h rc => add_to_history h rc.1 rc.2) []

/-- The initial state once a first pair of choices is on display (the
`process_choice` handlers only fire when `current_choices` is populated). -/
def introWithChoices : GameState :=
  { initGameState with
      current_choices := ["Open the door".toList, "Run away".toList] }

/-- The orchestration step as the specification words it (§4.4 step 3): on
provider failure the step is aborted and a `ProviderError` is signaled to
the caller, i.e. the caller receives the failure as an error outcome.
Stated for comparison against `get_ai_response`, which catches the failure
and returns normally. -/
def get_ai_response_spec (gs : GameState) (user_input : Str)
    (resp : Except Str Str) : Except Str GameState :=
  match resp with
  | .ok ai_message =>
    .ok (get_ai_response gs user_input (.ok ai_message))
  | .error e => .error e

example : extract_choices "CHOICE A: Go left\nCHOICE B: Go right".toList
    = ["Go left".toList, "Go right".toList] := by decide

example : extract_choices "Some text\n- Go left\n- Go right".toList
    = ["Go left".toList, "Go right".toList] := by decide

example : extract_choices "I see a door.".toList = default_choices := by decide

example : extract_choices "1. Stay\n2. Leave".toList
    = ["Stay".toList, "Leave".toList] := by decide

/-- C2: `extract_choices` always returns exactly two choices; whenever the
tier cascade collected fewer than two, the partial result is discarded for
the fixed default pair, and otherwise extra matches beyond the first two
are truncated.  Being a total function, it signals no error. -/
theorem extract_choices_always_two (text : Str) :
    (extract_choices text).length = 2 ∧
    (((collected_choices text).length < 2 ∧
        extract_choices text = default_choices) ∨
      (2 ≤ (collected_choices text).length ∧
        extract_choices text = (collected_choices text).take 2)) := by
  unfold extract_choices
  by_cases h : (collected_choices text).length < 2
  · rw [if_pos h]
    exact ⟨rfl, .inl ⟨h, rfl⟩⟩
  · rw [if_neg h]
    refine ⟨?_, .inr ⟨by omega, rfl⟩⟩
    rw [List.length_take]
    omega

/-- `get_ai_response` never changes the sanity value. -/
theorem get_ai_response_sanity (gs : GameState) (u : Str)
    (r : Except Str Str) : (get_ai_response gs u r).sanity = gs.sanity := by
  cases r <;> rfl

/-- One `process_choice` call keeps sanity inside [0,100]. -/
theorem process_choice_sanity (gs : GameState) (i : Nat) (d : Int)
    (r : Except Str Str) (h0 : 0 ≤ gs.sanity) (h1 : gs.sanity ≤ 100) :
    0 ≤ (process_choice gs i d r).sanity ∧
      (process_choice gs i d r).sanity ≤ 100 := by
  unfold process_choice
  split
  · refine ⟨le_max_left 0 _, max_le (by norm_num) (min_le_left 100 _)⟩
  · exact ⟨h0, h1⟩

/-- Sanity stays inside [0,100] along any run of `process_choice` calls. -/
theorem runChoices_sanity (steps : List (Nat × Int × Except Str Str)) :
    ∀ gs : GameState, 0 ≤ gs.sanity → gs.sanity ≤ 100 →
      0 ≤ (runChoices gs steps).sanity ∧ (runChoices gs steps).sanity ≤ 100 := by
  induction steps with
  | nil => exact fun gs h0 h1 => ⟨h0, h1⟩
  | cons step rest ih =>
    intro gs h0 h1
    obtain ⟨i, d, r⟩ := step
    have hb := process_choice_sanity gs i d r h0 h1
    exact ih (process_choice gs i d r) hb.1 hb.2

/-- C4: sanity starts at 100 and, for every sequence of `process_choice`
calls and every sequence of perturbation draws (each draw an arbitrary
integer, in particular any value in [-5,+5]), the sanity after each call
is an integer in [0,100] — the sum is clamped by
`max(0, min(100, sanity + change))`. -/
theorem sanity_always_clamped (steps : List (Nat × Int × Except Str Str)) :
    initGameState.sanity = 100 ∧
    0 ≤ (runChoices initGameState steps).sanity ∧
    (runChoices initGameState steps).sanity ≤ 100 :=
  ⟨rfl, runChoices_sanity steps initGameState (by decide) (by decide)⟩

/-- C8: from the initial state (sanity 100, scene `"intro"`, no choices
made) with a first pair of choices on display, one `process_choice` call
whose injected perturbation draw is -5 yields sanity 95 and moves the
scene id from `"intro"` to `"scene_1"`, reflecting the single recorded
choice. -/
theorem first_choice_scenario :
    introWithChoices.sanity = 100 ∧
    introWithChoices.current_scene = "intro".toList ∧
    introWithChoices.choices_made = [] ∧
    (process_choice introWithChoices 0 (-5)
        (.ok "The door opens.".toList)).sanity = 95 ∧
    (process_choice introWithChoices 0 (-5)
        (.ok "The door opens.".toList)).current_scene = "scene_1".toList ∧
    (process_choice introWithChoices 0 (-5)
        (.ok "The door opens.".toList)).choices_made
      = [("intro".toList, "Open the door".toList)] := by
  refine ⟨rfl, by decide, rfl, by decide, by decide, by decide⟩

/-- C9: the request submitted to the model provider and the state updates
performed by `get_ai_response` are independent of its `user_input`
argument — the function never reads it (callers append the user input to
the history themselves, beforehand). -/
theorem get_ai_response_user_input_independent (gs : GameState)
    (u1 u2 : Str) (resp : Except Str Str) :
    get_ai_response gs u1 resp = get_ai_response gs u2 resp ∧
    submitted_messages gs u1 = submitted_messages gs u2 :=
  ⟨rfl, rfl⟩

/-- C10: for any index at or beyond the number of currently displayed
choices, `process_choice` returns the state unchanged: no choice is
recorded, no history is appended, sanity and scene id are untouched. -/
theorem process_choice_out_of_range (gs : GameState) (i : Nat) (d : Int)
    (r : Except Str Str) (h : gs.current_choices.length ≤ i) :
    process_choice gs i d r = gs := by
  unfold process_choice
  rw [dif_neg (by omega)]

theorem process_choice_out_of_range_witness :
    process_choice initGameState 3 (-4) (.ok "x".toList) = initGameState :=
  process_choice_out_of_range initGameState 3 (-4) (.ok "x".toList) (by decide)

/-- C7 (counterexample to the signaling conjunct): on a failing provider
call, `get_ai_response` returns *normally* — the `except` clause absorbs
the failure, sets the displayable error text and preserves the history —
whereas the specification's wording (`get_ai_response_spec`) would hand the
caller an error outcome.  No `ProviderError` reaches the caller. -/
theorem provider_error_swallowed :
    get_ai_response initGameState "hi".toList (.error "boom".toList)
      = { initGameState with
            message_history :=
              [⟨"system", context_message
                  { initGameState with is_processing := true }⟩],
            current_text := error_message "boom".toList,
            is_processing := false } ∧
    get_ai_response_spec initGameState "hi".toList (.error "boom".toList)
      = .error "boom".toList := by
  exact ⟨rfl, rfl⟩

/-- C7 (amended): when the provider call fails, `get_ai_response` sets the
displayable error message, leaves the history exactly as it stood at the
moment of the provider call (the submitted sequence: prior turns plus the
context message of step 2 — in particular no assistant turn is appended),
leaves sanity, scene and recorded choices untouched, clears the processing
flag, and returns normally: no error is propagated to the caller. -/
theorem provider_failure_behavior (gs : GameState) (u e : Str) :
    (get_ai_response gs u (.error e)).current_text = error_message e ∧
    (get_ai_response gs u (.error e)).message_history
      = submitted_messages gs u ∧
    (get_ai_response gs u (.error e)).current_choices = [] ∧
    (get_ai_response gs u (.error e)).sanity = gs.sanity ∧
    (get_ai_response gs u (.error e)).current_scene = gs.current_scene ∧
    (get_ai_response gs u (.error e)).choices_made = gs.choices_made ∧
    (get_ai_response gs u (.error e)).is_processing = false :=
  ⟨rfl, rfl, rfl, rfl, rfl, rfl, rfl⟩

/-- The trim loop only ever drops elements from the front. -/
theorem trimLoop_suffix (n : Nat) (l : List Turn) : trimLoop n l <:+ l := by
  induction l with
  | nil => exact List.suffix_refl _
  | cons m ms ih =>
    unfold trimLoop
    split
    · exact ih.trans (List.suffix_cons m ms)
    · exact List.suffix_refl _

/-- The trim loop stops once the combined count fits the cap, or once it
runs out of elements. -/
theorem trimLoop_le_or_nil (n : Nat) (l : List Turn) :
    n + (trimLoop n l).length ≤ 20 ∨ trimLoop n l = [] := by
  induction l with
  | nil => exact .inr rfl
  | cons m ms ih =>
    unfold trimLoop
    split
    · exact ih
    · rename_i h
      exact .inl (by omega)

/-- Filtering a concatenation whose left part satisfies `p` throughout and
whose right part falsifies `p` throughout recovers the two parts. -/
theorem filter_append_part (p : Turn → Bool) (S T : List Turn)
    (hS : ∀ m ∈ S, p m = true) (hT : ∀ m ∈ T, p m = false) :
    (S ++ T).filter p = S ∧ (S ++ T).filter (fun m => !(p m)) = T := by
  constructor
  · rw [List.filter_append, List.filter_eq_self.mpr hS,
      List.filter_eq_nil_iff.mpr (fun a ha => by simp [hT a ha]),
      List.append_nil]
  · rw [List.filter_append,
      List.filter_eq_nil_iff.mpr (fun a ha => by simp [hS a ha]),
      List.filter_eq_self.mpr (fun a ha => by simp [hT a ha]),
      List.nil_append]

/-- C3: after any `add_to_history` call the history holds at most 20 turns
unless every retained turn is system-role; the system turns are all
retained, in order (never evicted); and the retained non-system turns form
a suffix of the non-system turns in append order, so trimming removed the
oldest non-system turns first. -/
theorem history_cap_and_system_preservation (history : List Turn)
    (role : String) (content : Str) :
    ((add_to_history history role content).length ≤ 20 ∨
      ∀ m ∈ add_to_history history role content, m.role = "system") ∧
    (add_to_history history role content).filter (fun m => m.role == "system")
      = (history ++ [Turn.mk role content]).filter (fun m => m.role == "system") ∧
    (add_to_history history role content).filter
        (fun m => !(m.role == "system"))
      <:+ (history ++ [Turn.mk role content]).filter
        (fun m => !(m.role == "system")) := by
  simp only [add_to_history]
  by_cases hl : (history ++ [Turn.mk role content]).length > 20
  · rw [if_pos hl]
    set h0 := history ++ [Turn.mk role content] with hh0
    set S := h0.filter (fun m => m.role == "system") with hS0
    set O := h0.filter (fun m => !(m.role == "system")) with hO0
    set T := trimLoop S.length O with hT0
    have hS : ∀ m ∈ S, (fun m : Turn => m.role == "system") m = true :=
      fun a ha => (List.mem_filter.mp ha).2
    have hT : ∀ m ∈ T, (fun m : Turn => m.role == "system") m = false := by
      intro a ha
      have hmem := (trimLoop_suffix S.length O).sublist.subset ha
      have := (List.mem_filter.mp hmem).2
      simpa using this
    obtain ⟨hfS, hfT⟩ :=
      filter_append_part (fun m => m.role == "system") S T hS hT
    refine ⟨?_, hfS, ?_⟩
    · rcases trimLoop_le_or_nil S.length O with hle | hnil
      · left
        rw [← hT0] at hle
        rw [List.length_append]
        omega
      · right
        rw [← hT0] at hnil
        intro m hm
        rw [hnil, List.append_nil] at hm
        have := hS m hm
        simpa using this
    · rw [hfT]
      exact trimLoop_suffix S.length O
  · rw [if_neg hl]
    exact ⟨.inl (by omega), rfl, List.suffix_refl _⟩

/-- C5 (counterexample): a run of 21 appends — twenty user turns then one
system turn — triggers trimming, which rebuilds the history as all system
turns followed by the surviving non-system turns.  The system turn `"S"`
was inserted *after* user turn `"1"`, yet both survive and `"S"` now
precedes `"1"`: a surviving pair does not keep its insertion order, so
trimming does reorder retained turns. -/
theorem trimming_reorders_surviving_turns :
    demo_appends.head? = some ("user", "0".toList) ∧
    demo_appends.getLast? = some ("system", "S".toList) ∧
    demo_run
      = ⟨"system", "S".toList⟩ ::
          (List.range 19).map
            (fun n => ⟨"user", (toString (n + 1)).toList⟩) :=
  ⟨by decide, by decide, by decide⟩

/-- C5 (amended): the submitted sequence preserves relative insertion order
*within* each role class: the system turns appear exactly in insertion
order, and the surviving non-system turns are a suffix of the non-system
turns in insertion order.  But an `add_to_history` call either leaves the
history as the pure append, or (when trimming fires) rebuilds it as all
system turns followed by the surviving non-system turns — so a system turn
appended after a non-system turn may move ahead of it. -/
theorem history_order_within_classes (history : List Turn) (role : String)
    (content : Str) :
    (add_to_history history role content).filter (fun m => m.role == "system")
      = (history ++ [Turn.mk role content]).filter (fun m => m.role == "system") ∧
    (add_to_history history role content).filter
        (fun m => !(m.role == "system"))
      <:+ (history ++ [Turn.mk role content]).filter
        (fun m => !(m.role == "system")) ∧
    (add_to_history history role content = history ++ [Turn.mk role content] ∨
      add_to_history history role content
        = (history ++ [Turn.mk role content]).filter (fun m => m.role == "system")
            ++ (add_to_history history role content).filter
              (fun m => !(m.role == "system"))) := by
  simp only [add_to_history]
  by_cases hl : (history ++ [Turn.mk role content]).length > 20
  · rw [if_pos hl]
    set h0 := history ++ [Turn.mk role content] with hh0
    set S := h0.filter (fun m => m.role == "system") with hS0
    set O := h0.filter (fun m => !(m.role == "system")) with hO0
    set T := trimLoop S.length O with hT0
    have hS : ∀ m ∈ S, (fun m : Turn => m.role == "system") m = true :=
      fun a ha => (List.mem_filter.mp ha).2
    have hT : ∀ m ∈ T, (fun m : Turn => m.role == "system") m = false := by
      intro a ha
      have hmem := (trimLoop_suffix S.length O).sublist.subset ha
      have := (List.mem_filter.mp hmem).2
      simpa using this
    obtain ⟨hfS, hfT⟩ :=
      filter_append_part (fun m => m.role == "system") S T hS hT
    refine ⟨hfS, ?_, .inr ?_⟩
    · rw [hfT]
      exact trimLoop_suffix S.length O
    · rw [hfT]
  · rw [if_neg hl]
    exact ⟨rfl, List.suffix_refl _, .inl rfl⟩

/-- Substring containment is stable under extending on the left by one
character. -/
theorem containsSub_cons (c : Char) (sub s : Str)
    (h : containsSub sub s = true) : containsSub sub (c :: s) = true := by
  simp [containsSub, h]

/-- Substring containment is stable under prepending any list. -/
theorem containsSub_append_left (a sub s : Str)
    (h : containsSub sub s = true) : containsSub sub (a ++ s) = true := by
  induction a with
  | nil => exact h
  | cons c cs ih => exact containsSub_cons c sub (cs ++ s) ih

/-- A prefix occurrence is in particular a substring occurrence. -/
theorem containsSub_of_isPrefixOf (sub s : Str)
    (h : sub.isPrefixOf s = true) : containsSub sub s = true := by
  cases s with
  | nil => exact h
  | cons c cs => simp [containsSub, h]

/-- `isPrefixOf` is stable under extending the larger list on the right. -/
theorem isPrefixOf_append (l₁ l₂ t : Str) (h : l₁.isPrefixOf l₂ = true) :
    l₁.isPrefixOf (l₂ ++ t) = true := by
  simp only [List.isPrefixOf_iff_prefix] at h ⊢
  exact h.trans (List.prefix_append l₂ t)

/-- Everything after the first colon of `a ++ ':' :: x` is `x` when `a`
itself has no colon. -/
theorem afterFirstColon_append (a x : Str) (ha : ∀ c ∈ a, c ≠ ':') :
    afterFirstColon (a ++ ':' :: x) = x := by
  induction a with
  | nil => simp [afterFirstColon, List.dropWhile]
  | cons c cs ih =>
    have hc : c ≠ ':' := ha c (by simp)
    simp only [afterFirstColon, List.cons_append, List.dropWhile_cons] at ih ⊢
    simp only [hc, bne_iff_ne, ne_eq, not_false_eq_true, Bool.not_eq_true,
      decide_eq_false_iff_not, if_pos]
    rw [if_pos (by simp [hc])]
    exact ih fun d hd => ha d (by simp [hd])

/-- Splitting a newline-free piece yields just that piece. -/
theorem pySplit_single (l : Str) (h : '\n' ∉ l) : pySplit '\n' l = [l] := by
  induction l with
  | nil => rfl
  | cons c cs ih =>
    have hc : c ≠ '\n' := fun hcc => h (by simp [hcc])
    have ih' := ih fun hm => h (by simp [hm])
    simp [pySplit, hc, ih']

/-- Splitting past a separator that follows a newline-free piece peels off
that piece. -/
theorem pySplit_append (l rest : Str) (h : '\n' ∉ l) :
    pySplit '\n' (l ++ '\n' :: rest) = l :: pySplit '\n' rest := by
  induction l with
  | nil => simp [pySplit]
  | cons c cs ih =>
    have hc : c ≠ '\n' := fun hcc => h (by simp [hcc])
    have ih' := ih fun hm => h (by simp [hm])
    simp [pySplit, hc, ih']

/-- `pySplit` is a left inverse of `joinLines` on nonempty lists of
newline-free lines. -/
theorem pySplit_joinLines (ls : List Str) (hne : ls ≠ [])
    (hnl : ∀ l ∈ ls, '\n' ∉ l) : pySplit '\n' (joinLines ls) = ls := by
  induction ls with
  | nil => exact absurd rfl hne
  | cons l ls ih =>
    cases ls with
    | nil => exact pySplit_single l (hnl l (by simp))
    | cons l' ls' =>
      have hjoin : joinLines (l :: l' :: ls') = l ++ '\n' :: joinLines (l' :: ls') :=
        rfl
      rw [hjoin, pySplit_append l _ (hnl l (by simp)),
        ih (by simp) fun m hm => hnl m (by simp [hm])]

/-- Fusing a filter with a guarded `filterMap` into a single filter
followed by a map. -/
theorem filter_filterMap_fuse (p q : Str → Bool) (f : Str → Str)
    (ls : List Str) :
    (ls.filter p).filterMap (fun l => if q l then some (f l) else none)
      = (ls.filter (fun l => p l && q l)).map f := by
  induction ls with
  | nil => rfl
  | cons a as ih =>
    by_cases hp : p a <;> by_cases hq : q a <;>
      simp [List.filter_cons, List.filterMap_cons, hp, hq, ih]

/-- The two-pass tier-1 collection, fused: filter the lines by
`tier1_match`, then extract after the first colon and strip. -/
theorem tier1_choices_filter_map (text : Str) :
    tier1_choices text
      = ((pySplit '\n' text).filter tier1_match).map
          (fun line => pyStrip (afterFirstColon line)) :=
  filter_filterMap_fuse (fun line => containsSub "CHOICE ".toList line)
    (fun line => containsSub ":".toList line)
    (fun line => pyStrip (afterFirstColon line)) (pySplit '\n' text)

/-- C6 (amended): a line of the response contributes to tier 1 exactly when
it contains the token `"CHOICE "` and contains a colon *anywhere in the
line* (the colon may precede the token); each contributing line yields
everything after its first colon, trimmed of surrounding whitespace, in
line order. -/
theorem tier1_line_semantics (text : Str) :
    tier1_choices text
      = ((pySplit '\n' text).filter tier1_match).map
          (fun line => pyStrip (afterFirstColon line)) :=
  tier1_choices_filter_map text

/-- C6 (counterexample): the line `"Note: press CHOICE now"` contains
`"CHOICE "` and a colon, but the colon comes *before* the token, so under
the claimed condition ("`CHOICE ` followed later in the line by a colon")
it would not match tier 1 — yet the code matches it and extracts
`"press CHOICE now"` from it. -/
theorem tier1_colon_position_cex :
    tier1_match "Note: press CHOICE now".toList = true ∧
    tier1_match_claimed "Note: press CHOICE now".toList = false ∧
    tier1_choices "Note: press CHOICE now".toList
      = ["press CHOICE now".toList] :=
  ⟨by decide, by decide, by decide⟩

/-- C1 (counterexample): a text whose lines include the well-formed tagged
lines `"CHOICE A: Go left"` and `"CHOICE B: Go right"` but whose first
line also contains the token `"CHOICE "` together with a colon makes the
extractor collect that stray line first, so the returned pair is *not*
`("Go left", "Go right")`. -/
theorem tagged_pair_displaced_by_stray_line :
    extract_choices
        "Warning: save your CHOICE now\nCHOICE A: Go left\nCHOICE B: Go right".toList
      ≠ ["Go left".toList, "Go right".toList] ∧
    extract_choices
        "Warning: save your CHOICE now\nCHOICE A: Go left\nCHOICE B: Go right".toList
      = ["save your CHOICE now".toList, "Go left".toList] :=
  ⟨by decide, by decide⟩

/-- C1 (amended): for every text whose lines comprise a well-formed
`"CHOICE A:"`-tagged line with payload `X` followed later by a well-formed
`"CHOICE B:"`-tagged line with payload `Y`, where no *other* line contains
both the token `"CHOICE "` and a colon, `extract_choices` returns exactly
the pair `(X, Y)` with each payload trimmed of leading/trailing
whitespace, in the order the two lines appear in the text. -/
theorem extract_wellformed_tagged_pair
    (pre mid post : List Str) (X Y : Str)
    (hpre : ∀ l ∈ pre, tier1_match l = false)
    (hmid : ∀ l ∈ mid, tier1_match l = false)
    (hpost : ∀ l ∈ post, tier1_match l = false)
    (hprenl : ∀ l ∈ pre, '\n' ∉ l) (hmidnl : ∀ l ∈ mid, '\n' ∉ l)
    (hpostnl : ∀ l ∈ post, '\n' ∉ l) (hX : '\n' ∉ X) (hY : '\n' ∉ Y) :
    extract_choices (joinLines (pre ++ ("CHOICE A:".toList ++ X) :: mid
        ++ ("CHOICE B:".toList ++ Y) :: post))
      = [pyStrip X, pyStrip Y] := by
  set A := "CHOICE A:".toList ++ X with hA0
  set B := "CHOICE B:".toList ++ Y with hB0
  set ls := pre ++ A :: mid ++ B :: post with hls0
  have hAmatch : tier1_match A = true := by
    rw [hA0]
    unfold tier1_match
    rw [containsSub_of_isPrefixOf _ _
      (isPrefixOf_append "CHOICE ".toList "CHOICE A:".toList X (by decide))]
    rw [Bool.true_and]
    show containsSub ":".toList ("CHOICE A".toList ++ (':' :: X)) = true
    exact containsSub_append_left _ _ _
      (containsSub_of_isPrefixOf _ _ (by simp [List.isPrefixOf_cons₂]))
  have hBmatch : tier1_match B = true := by
    rw [hB0]
    unfold tier1_match
    rw [containsSub_of_isPrefixOf _ _
      (isPrefixOf_append "CHOICE ".toList "CHOICE B:".toList Y (by decide))]
    rw [Bool.true_and]
    show containsSub ":".toList ("CHOICE B".toList ++ (':' :: Y)) = true
    exact containsSub_append_left _ _ _
      (containsSub_of_isPrefixOf _ _ (by simp [List.isPrefixOf_cons₂]))
  have hAafter : afterFirstColon A = X := by
    rw [hA0]
    show afterFirstColon ("CHOICE A".toList ++ (':' :: X)) = X
    exact afterFirstColon_append "CHOICE A".toList X (by decide)
  have hBafter : afterFirstColon B = Y := by
    rw [hB0]
    show afterFirstColon ("CHOICE B".toList ++ (':' :: Y)) = Y
    exact afterFirstColon_append "CHOICE B".toList Y (by decide)
  have hnlA : '\n' ∉ A := by
    rw [hA0]
    intro hmem
    rcases List.mem_append.mp hmem with h | h
    · exact absurd h (by decide)
    · exact hX h
  have hnlB : '\n' ∉ B := by
    rw [hB0]
    intro hmem
    rcases List.mem_append.mp hmem with h | h
    · exact absurd h (by decide)
    · exact hY h
  have hnl : ∀ l ∈ ls, '\n' ∉ l := by
    intro l hl
    rw [hls0] at hl
    simp only [List.mem_append, List.mem_cons] at hl
    rcases hl with (h | h | h) | h | h
    · exact hprenl l h
    · rw [h]; exact hnlA
    · exact hmidnl l h
    · rw [h]; exact hnlB
    · exact hpostnl l h
  have hne : ls ≠ [] := by rw [hls0]; cases pre <;> simp
  have hsplit : pySplit '\n' (joinLines ls) = ls := pySplit_joinLines ls hne hnl
  have hfpre : pre.filter tier1_match = [] :=
    List.filter_eq_nil_iff.mpr fun a ha => by simp [hpre a ha]
  have hfmid : mid.filter tier1_match = [] :=
    List.filter_eq_nil_iff.mpr fun a ha => by simp [hmid a ha]
  have hfpost : post.filter tier1_match = [] :=
    List.filter_eq_nil_iff.mpr fun a ha => by simp [hpost a ha]
  have ht1 : tier1_choices (joinLines ls) = [pyStrip X, pyStrip Y] := by
    rw [tier1_choices_filter_map, hsplit, hls0]
    rw [List.filter_append, List.filter_append, hfpre,
      List.filter_cons_of_pos hAmatch, hfmid,
      List.filter_cons_of_pos hBmatch, hfpost]
    simp only [List.nil_append, List.append_nil, List.singleton_append,
      List.map_cons, List.map_nil]
    rw [hAafter, hBafter]
  have hcoll : collected_choices (joinLines ls) = [pyStrip X, pyStrip Y] := by
    unfold collected_choices
    rw [ht1]
    simp
  unfold extract_choices
  rw [hcoll]
  simp

theorem extract_wellformed_tagged_pair_witness :
    extract_choices (joinLines (["The fog thickens.".toList]
        ++ ("CHOICE A:".toList ++ " Go left".toList) :: []
        ++ ("CHOICE B:".toList ++ " Go right".toList) :: ["The end.".toList]))
      = ["Go left".toList, "Go right".toList] :=
  (extract_wellformed_tagged_pair ["The fog thickens.".toList] []
      ["The end.".toList] " Go left".toList " Go right".toList
      (by decide) (by decide) (by decide) (by decide) (by decide) (by decide)
      (by decide) (by decide)).trans (by decide)

